import Mathlib

/-!
Verification of the generalized reconciliation engine
(`reconciliation_general.py`): composite-key generation, cross-sheet
matching, the declarative condition evaluator, and the first-match-wins
remarks engine.

Modelling decisions (shallow embedding of the Python source):
* A cell value is `Value`: `absent` models `None` / pandas `NaN`
  (anything with `pd.isna(v)` true), `str` a Python string, `num` a
  Python `int`/`float` (modelled as `ℚ`; the decimal floats appearing in
  the claims are exact rationals), `bool` a Python `bool`.
* A row (`pd.Series`) is an association list from column name to value;
  lookup returns the first binding, mirroring a Series with unique
  labels.  A table (`pd.DataFrame`) is a list of rows; a whole-column
  assignment `df[col] = values` rewrites the column cell of each row.
* Python `str(x)` on a non-integer rational is not modelled exactly
  (Python prints floats in decimal); `pyStr` agrees with Python on
  strings, booleans and integer-valued numbers, the cases the engine's
  key columns use.  `parse_numeric` on a `num` value short-circuits to
  the number itself, which is what `float(str(x))` yields in Python.
* Dictionary indexing that raises `KeyError` in Python (a sheet name
  missing from `config['sheets']`) is modelled by `Option`-returning
  functions where the raise aborts a whole phase, and by an `absent`
  result inside operand resolution (the engine only reaches that spot
  for sheets that were loaded, hence configured).
-/

/-- A Python cell value as it appears in a pandas row. -/
inductive Value where
  | absent : Value
  | str : String → Value
  | num : ℚ → Value
  | bool : Bool → Value
deriving DecidableEq, Repr

/-- Python `==` on cell values: numbers compare numerically (a `bool`
is numerically `0`/`1` in Python), strings compare as strings, values
of unrelated types are unequal, and `None == None` holds. -/
def pyEq : Value → Value → Bool
  | .str a, .str b => a == b
  | .num a, .num b => decide (a = b)
  | .num a, .bool b => decide (a = (if b then 1 else 0))
  | .bool a, .num b => decide ((if a then (1 : ℚ) else 0) = b)
  | .bool a, .bool b => a == b
  | .absent, .absent => true
  | _, _ => false

/-- Python truthiness: `None`, `""`, `0`, `False` are falsy. -/
def pyTruthy : Value → Bool
  | .absent => false
  | .str s => s ≠ ""
  | .num q => decide (q ≠ 0)
  | .bool b => b

/-- Decimal string of a rational with denominator 1, used by `pyStr`. -/
def ratStr (q : ℚ) : String :=
  if q.den = 1 then toString q.num else toString q.num ++ "/" ++ toString q.den

/-- Python `str(x)` as used by the engine (f-string interpolation and
`str(value).strip()`).  Faithful on strings, booleans, `None` and
integer-valued numbers. -/
def pyStr : Value → String
  | .absent => "None"
  | .str s => s
  | .num q => ratStr q
  | .bool b => if b then "True" else "False"

/-- `is_empty_or_null` from the source: `pd.isna(value) or value == ""
or value is None`.  A numeric `0` and `False` are not empty. -/
def is_empty_or_null : Value → Bool
  | .absent => true
  | .str s => s == ""
  | _ => false

/-! ### String helpers (Python `str.strip` / `str.split(sep)`) -/

/-- A whitespace character in the sense of Python `str.strip()`. -/
def pyIsSpace (c : Char) : Bool :=
  c = ' ' ∨ c = '\t' ∨ c = '\n' ∨ c = '\r' ∨ c = '\x0b' ∨ c = '\x0c'

/-- Remove leading and trailing whitespace from a character list. -/
def trimChars (cs : List Char) : List Char :=
  ((cs.dropWhile pyIsSpace).reverse.dropWhile pyIsSpace).reverse

/-- Python `s.strip()`. -/
def pyStrip (s : String) : String := String.mk (trimChars s.toList)

/-- Split a character list on a separator character; like Python
`str.split(sep)`, the empty input yields one empty segment. -/
def splitOnCharAux (sep : Char) : List Char → List Char → List (List Char)
  | [], acc => [acc.reverse]
  | c :: rest, acc =>
      if c = sep then acc.reverse :: splitOnCharAux sep rest []
      else splitOnCharAux sep rest (c :: acc)

/-- Python `s.split(sep)` for a one-character separator. -/
def pySplit (s : String) (sep : Char) : List String :=
  (splitOnCharAux sep s.toList []).map String.mk

/-! ### Numeric parsing (`parse_numeric`) -/

/-- Value of a list of decimal digit characters. -/
def digitsToNat (cs : List Char) : Nat :=
  cs.foldl (fun a c => a * 10 + (c.toNat - 48)) 0

/-- Leading optional sign; returns (isNegative, rest). -/
def parseSign : List Char → Bool × List Char
  | '-' :: rest => (true, rest)
  | '+' :: rest => (false, rest)
  | cs => (false, cs)

/-- Mantissa of a float literal: digits with an optional fractional
part; at least one digit overall.  The value is assembled with
`mkRat`, the kernel-friendly rational constructor. -/
def parseMantissa (cs : List Char) : Option (ℚ × List Char) :=
  let ip := cs.takeWhile Char.isDigit
  let rest := cs.dropWhile Char.isDigit
  match rest with
  | '.' :: rest2 =>
      let fp := rest2.takeWhile Char.isDigit
      let rest3 := rest2.dropWhile Char.isDigit
      if ip.isEmpty && fp.isEmpty then none
      else some (mkRat (Int.ofNat (digitsToNat ip)) 1 +
                 mkRat (Int.ofNat (digitsToNat fp)) (10 ^ fp.length), rest3)
  | _ =>
      if ip.isEmpty then none
      else some (mkRat (Int.ofNat (digitsToNat ip)) 1, rest)

/-- Optional exponent part `e`/`E` with optional sign and digits. -/
def parseExpPart (cs : List Char) : Option (Int × List Char) :=
  match cs with
  | c :: rest =>
      if c = 'e' ∨ c = 'E' then
        let (neg, rest2) := parseSign rest
        let ds := rest2.takeWhile Char.isDigit
        let rest3 := rest2.dropWhile Char.isDigit
        if ds.isEmpty then none
        else some ((if neg then -Int.ofNat (digitsToNat ds) else Int.ofNat (digitsToNat ds)), rest3)
      else some (0, cs)
  | [] => some (0, [])

/-- Model of Python `float(s)` on an already-stripped string: optional
sign, decimal mantissa, optional exponent; `none` when `float` raises
`ValueError`. -/
def parseFloat? (s : String) : Option ℚ := do
  let (neg, cs) := parseSign s.toList
  let (m, cs) ← parseMantissa cs
  let (e, cs) ← parseExpPart cs
  if cs.isEmpty then
    let v := m * (10 : ℚ) ^ e
    pure (if neg then -v else v)
  else none

/-- `str(value).replace(',', '').replace(' ', '').strip()` from
`parse_numeric`: drop every comma and space character, then trim
remaining surrounding whitespace. -/
def pyCleanNumStr (s : String) : String :=
  pyStrip (String.mk (s.toList.filter (fun c => c ≠ ',' ∧ c ≠ ' ')))

/-- `parse_numeric` from the source: null/empty to `0.0`; strings have
commas and spaces removed, `""` and `"-"` give `0.0`, unparsable text
gives `0.0` (the `except` branch), otherwise the parsed number.  A
numeric value round-trips through `float(str(x))` to itself; a boolean
stringifies to `"True"`/`"False"`, which `float` rejects. -/
def parse_numeric : Value → ℚ
  | .absent => 0
  | .num q => q
  | .bool _ => 0
  | .str s =>
      let t := pyCleanNumStr s
      if t = "" ∨ t = "-" then 0
      else (parseFloat? t).getD 0

/-! ### Normalization registry -/

/-- One pass of `re.sub(r'\([^)]*\)', '', s)`: remove each `(...)`
group (from a `(` through the first following `)`), leftmost first; a
`(` with no later `)` stays.  Fuel is the list length; every step
consumes at least one character. -/
def removeBracketsAux : Nat → List Char → List Char
  | 0, cs => cs
  | _ + 1, [] => []
  | fuel + 1, c :: rest =>
      if c = '(' then
        match rest.dropWhile (fun x => x ≠ ')') with
        | ')' :: rest2 => removeBracketsAux fuel rest2
        | _ => c :: removeBracketsAux fuel rest
      else c :: removeBracketsAux fuel rest

def removeBrackets (s : String) : String :=
  String.mk (removeBracketsAux s.toList.length s.toList)

/-- `normalize_policy`: empty/null to `""`; else trim, cut everything
from the first `-` on (then trim), remove bracketed groups, trim. -/
def normalize_policy (v : Value) : Value :=
  if v = Value.absent ∨ v = Value.str "" then Value.str ""
  else
    let s := pyStrip (pyStr v)
    let s := if s.toList.contains '-' then pyStrip ((pySplit s '-').getD 0 s) else s
    Value.str (pyStrip (removeBrackets s))

/-- `extract_document`: empty/null to `None`; else trim and split on
`/`; with at least two segments return segment index 1 trimmed, else
the trimmed whole value. -/
def extract_document (v : Value) : Value :=
  if v = Value.absent ∨ v = Value.str "" then Value.absent
  else
    let s := pyStrip (pyStr v)
    let parts := pySplit s '/'
    if 2 ≤ parts.length then Value.str (pyStrip (parts.getD 1 ""))
    else Value.str s

/-- `normalize_document`: empty/null to `""`; else trim and keep the
part before the first `/`, trimmed. -/
def normalize_document (v : Value) : Value :=
  if v = Value.absent ∨ v = Value.str "" then Value.str ""
  else
    let s := pyStrip (pyStr v)
    if s.toList.contains '/' then Value.str (pyStrip ((pySplit s '/').getD 0 s))
    else Value.str s

/-- `NORMALIZATION_REGISTRY`: the three named transforms. -/
def NORMALIZATION_REGISTRY : String → Option (Value → Value) := fun name =>
  if name = "normalize_policy" then some normalize_policy
  else if name = "extract_document" then some extract_document
  else if name = "normalize_document" then some normalize_document
  else none

/-- `apply_normalization`: look the name up in the registry; an
unknown name passes the value through unchanged. -/
def apply_normalization (value : Value) (func_name : String) : Value :=
  match NORMALIZATION_REGISTRY func_name with
  | some f => f value
  | none => value

/-! ### Rows, tables and configuration -/

/-- A pandas row (`pd.Series`): association list from column name to
value; the engine only reads, writes and tests membership of labels. -/
abbrev Row := List (String × Value)

/-- A pandas table (`pd.DataFrame`): its rows in iteration order. -/
abbrev Table := List Row

/-- First binding of a key in an association list (Python `dict`
lookup; dictionaries have unique keys, rows unique labels). -/
def alookup {α : Type} : List (String × α) → String → Option α
  | [], _ => none
  | p :: rest, k => if p.1 = k then some p.2 else alookup rest k

/-- `row.get(label)` returning `none` when the label is absent. -/
def Row.get? (r : Row) (k : String) : Option Value := alookup r k

/-- `row.get(label, default)`. -/
def rowGet (r : Row) (k : String) (d : Value) : Value := (Row.get? r k).getD d

/-- `row[label] = v` on a Series: replace the binding if the label is
present, else append it. -/
def Row.set (r : Row) (k : String) (v : Value) : Row :=
  if (alookup r k).isSome then
    r.map (fun p => if p.1 = k then (k, v) else p)
  else r ++ [(k, v)]

/-- `df[col] = values`, one value per row (the engine always builds
exactly one value per row). -/
def Table.setCol (t : Table) (k : String) (vs : List Value) : Table :=
  (t.zip vs).map (fun p => Row.set p.1 k p.2)

/-- Cell of a table: `none` when the row index or the column is absent. -/
def Table.cell (t : Table) (i : Nat) (c : String) : Option Value :=
  (t.get? i).bind (fun r => Row.get? r c)

/-- Left-biased choice on options, used to state fold lemmas. -/
def optOr {α : Type} : Option α → Option α → Option α
  | some v, _ => some v
  | none, b => b

/-- One sheet's entry in `config['sheets']`: the fields the engine
reads (`columns`, `key_fields.policy_column`,
`key_fields.document_columns`, `normalizations`,
`trans_type_column_labels`), each with its `.get` default. -/
structure SheetConfig where
  columns : List (String × String) := []
  policy_column : String := ""
  document_columns : List String := []
  normalizations : List (String × String) := []
  trans_type_column_labels : List (String × String) := []
deriving DecidableEq, Repr

/-- Per-secondary-sheet output column names from
`config['matching']['output_columns']`; a missing entry means the
column is not written. -/
structure OutputCols where
  availability : Option String := none
  trans_type : Option String := none
deriving DecidableEq, Repr

/-- `config['matching']`. -/
structure MatchingConfig where
  primary_sheet : String
  secondary_sheets : List String := []
  output_columns : List (String × OutputCols) := []
deriving DecidableEq, Repr

/-- An operand of a condition: a literal (`{"value": v}`), or a column
reference (`{"sheet": ..., "column": ...}`) whose omitted fields
default to the current sheet / an unresolvable column. -/
inductive Operand where
  | lit : Value → Operand
  | ref : Option String → Option String → Operand
deriving DecidableEq, Repr

/-- A condition dictionary: its `type` tag, `left`/`right` operands,
optional `tolerance`, and nested `conditions` for `cross_sheet_or`.
Conditions whose evaluation would read a `left`/`right` key that the
configuration omitted raise `KeyError` in the source; such malformed
dictionaries are outside the model, so the operand fields are total
(with inert defaults for the condition kinds that ignore them). -/
inductive Condition where
  | mk : (type : String) → (left right : Operand) → (tolerance : Option ℚ) →
      (conditions : List Condition) → Condition

def Condition.type : Condition → String
  | .mk t _ _ _ _ => t

def Condition.left : Condition → Operand
  | .mk _ l _ _ _ => l

def Condition.right : Condition → Operand
  | .mk _ _ r _ _ => r

def Condition.tolerance : Condition → Option ℚ
  | .mk _ _ _ tol _ => tol

def Condition.conditions : Condition → List Condition
  | .mk _ _ _ _ cs => cs

/-- A rule from a sheet's `remarks_rules` list: condition list
(default `[]`), combinator (default `'AND'`), and the mandatory
`remark` label. -/
structure Rule where
  conditions : List Condition := []
  condition_logic : String := "AND"
  remark : String

/-- One sheet's entry in `config['remarks_rules']`, with the `.get`
defaults of the source.  The source treats an empty rules dictionary
the same as a missing one (`if not rules_config: return df`), so a
represented entry stands for a non-empty dictionary. -/
structure RulesConfig where
  output_column : String := "Remarks"
  default_remark : String := "Not Reconciled"
  rules : List Rule := []

/-- The validated configuration: the three required top-level
sections. -/
structure Config where
  sheets : List (String × SheetConfig)
  matching : MatchingConfig
  remarks_rules : List (String × RulesConfig)

/-- `get_column_name`: logical-to-actual column resolution, falling
back to the logical name itself. -/
def get_column_name (sheet_config : SheetConfig) (logical_name : String) : String :=
  (alookup sheet_config.columns logical_name).getD logical_name

/-! ### Key generation -/

/-- The value of one key field of a row: apply the configured
normalization when one is declared for the logical field, else
`str(value).strip()` (empty for a null).  Shared by the policy and the
document fields of `generate_composite_keys`. -/
def keyFieldValue (row : Row) (sc : SheetConfig) (logical : String) : Value :=
  let actual := (alookup sc.columns logical).getD logical
  let value := rowGet row actual (Value.str "")
  match alookup sc.normalizations logical with
  | some fn => apply_normalization value fn
  | none => if value = Value.absent then Value.str "" else Value.str (pyStrip (pyStr value))

/-- `generate_composite_keys`: one `(key, actual document column)`
pair per document column whose normalized value is truthy, in the
declared column order; the key is the f-string
`"{policy_value}|{doc_value}"`. -/
def generate_composite_keys (row : Row) (sc : SheetConfig) : List (String × String) :=
  let policy_value := keyFieldValue row sc sc.policy_column
  sc.document_columns.filterMap (fun doc_logical =>
    let doc_actual := (alookup sc.columns doc_logical).getD doc_logical
    let doc_value := keyFieldValue row sc doc_logical
    if pyTruthy doc_value then
      some (pyStr policy_value ++ "|" ++ pyStr doc_value, doc_actual)
    else none)

/-! ### Condition evaluator -/

/-- `get_value_from_operand`.  A literal resolves to itself.  A
reference to the current sheet reads the current row; a reference to
any other sheet reads the supplied matched row, or resolves to `None`
when there is none.  The column is resolved logical-to-actual with a
raw-name fallback against the row's labels.  (For a sheet name missing
from `config['sheets']` the source raises `KeyError`; the engine only
reaches this code for loaded, configured sheets, and the model returns
`absent` there.) -/
def get_value_from_operand (operand : Operand) (current_row : Row)
    (current_sheet_name : String) (sheets_config : List (String × SheetConfig))
    (matched_row : Option Row) : Value :=
  match operand with
  | .lit v => v
  | .ref sheetOpt columnOpt =>
    let sheet_name := sheetOpt.getD current_sheet_name
    let picked : Option (Row × SheetConfig) :=
      if sheet_name = current_sheet_name then
        (alookup sheets_config sheet_name).map (fun c => (current_row, c))
      else
        matched_row.bind (fun mr => (alookup sheets_config sheet_name).map (fun c => (mr, c)))
    match picked, columnOpt with
    | some (row, config), some column_ref =>
      let actual_col := get_column_name config column_ref
      match Row.get? row actual_col with
      | some v => v
      | none =>
        match Row.get? row column_ref with
        | some v => v
        | none => Value.absent
    | _, _ => Value.absent

/-- `isinstance(x, (int, float))` from the `equals` branch: true for
Python numbers, including booleans (`bool` subclasses `int`). -/
def isNumericPy : Value → Bool
  | .num _ => true
  | .bool _ => true
  | _ => false

/-- The rational a Python number stands for in a comparison (`True`
is `1`, `False` is `0`); `0` on non-numbers, where it is never used. -/
def numericRat : Value → ℚ
  | .num q => q
  | .bool b => if b then 1 else 0
  | _ => 0

mutual

/-- `evaluate_condition`: dispatch on the `type` tag.  `equals`
coerces the left value through `parse_numeric` exactly when the right
value is a Python number (`isinstance(right_val, (int, float))`, which
includes booleans); the comparison kinds parse both sides numerically;
`empty`/`not_empty` test the left value; `key_exists_in` only asks
whether a matched row was resolved; `has_match`/`no_match` read the
row's `_has_match` flag; `cross_sheet_or` is an OR over its nested
conditions; any other tag yields `False`. -/
def evaluate_condition (condition : Condition) (current_row : Row)
    (current_sheet_name : String) (sheets_config : List (String × SheetConfig))
    (matched_row : Option Row) : Bool :=
  match condition with
  | .mk t l r tol subs =>
    if t = "equals" then
      let left_val := get_value_from_operand l current_row current_sheet_name sheets_config matched_row
      let right_val := get_value_from_operand r current_row current_sheet_name sheets_config matched_row
      let left_val :=
        match right_val with
        | .num _ => Value.num (parse_numeric left_val)
        | .bool _ => Value.num (parse_numeric left_val)
        | _ => left_val
      pyEq left_val right_val
    else if t = "approx_equals" then
      let left_val := parse_numeric (get_value_from_operand l current_row current_sheet_name sheets_config matched_row)
      let right_val := parse_numeric (get_value_from_operand r current_row current_sheet_name sheets_config matched_row)
      let tolerance := tol.getD (1 / 100)
      decide (|left_val - right_val| < tolerance)
    else if t = "less_than" then
      let left_val := parse_numeric (get_value_from_operand l current_row current_sheet_name sheets_config matched_row)
      let right_val := parse_numeric (get_value_from_operand r current_row current_sheet_name sheets_config matched_row)
      decide (left_val < right_val)
    else if t = "greater_than" then
      let left_val := parse_numeric (get_value_from_operand l current_row current_sheet_name sheets_config matched_row)
      let right_val := parse_numeric (get_value_from_operand r current_row current_sheet_name sheets_config matched_row)
      decide (left_val > right_val)
    else if t = "empty" then
      is_empty_or_null (get_value_from_operand l current_row current_sheet_name sheets_config matched_row)
    else if t = "not_empty" then
      !is_empty_or_null (get_value_from_operand l current_row current_sheet_name sheets_config matched_row)
    else if t = "key_exists_in" then
      matched_row.isSome
    else if t = "has_match" then
      pyTruthy (rowGet current_row "_has_match" (Value.bool false))
    else if t = "no_match" then
      !pyTruthy (rowGet current_row "_has_match" (Value.bool false))
    else if t = "cross_sheet_or" then
      evaluate_condition_any subs current_row current_sheet_name sheets_config matched_row
    else false

/-- The `cross_sheet_or` loop: true when some nested condition is. -/
def evaluate_condition_any (conditions : List Condition) (current_row : Row)
    (current_sheet_name : String) (sheets_config : List (String × SheetConfig))
    (matched_row : Option Row) : Bool :=
  match conditions with
  | [] => false
  | c :: rest =>
      evaluate_condition c current_row current_sheet_name sheets_config matched_row ||
      evaluate_condition_any rest current_row current_sheet_name sheets_config matched_row

end

/-- `evaluate_conditions`: an empty list is vacuously true; otherwise
evaluate every condition and combine with the declared logic (`AND`
default, any unrecognized combinator behaving as `AND`). -/
def evaluate_conditions (conditions : List Condition) (condition_logic : String)
    (current_row : Row) (current_sheet_name : String)
    (sheets_config : List (String × SheetConfig)) (matched_row : Option Row) : Bool :=
  if conditions.isEmpty then true
  else
    let results := conditions.map (fun c =>
      evaluate_condition c current_row current_sheet_name sheets_config matched_row)
    if condition_logic = "AND" then results.all id
    else if condition_logic = "OR" then results.any id
    else results.all id

/-- Whether an operand can never read the given column of the current
sheet's row: literals read nothing; a reference to another sheet reads
the matched row; a reference to the current sheet is safe when it
resolves (logical-to-actual, and by raw-name fallback) to a different
column. -/
def operandAvoids (col sheet : String) (sc : SheetConfig) : Operand → Bool
  | .lit _ => true
  | .ref sOpt cOpt =>
      if sOpt.getD sheet = sheet then
        match cOpt with
        | none => true
        | some cr => decide (get_column_name sc cr ≠ col) && decide (cr ≠ col)
      else true

mutual

/-- Whether a condition's operands, including those of nested
`cross_sheet_or` conditions, all avoid the given current-sheet
column. -/
def condAvoids (col sheet : String) (sc : SheetConfig) : Condition → Bool
  | .mk _ l r _ subs =>
      operandAvoids col sheet sc l && operandAvoids col sheet sc r &&
        condListAvoids col sheet sc subs

def condListAvoids (col sheet : String) (sc : SheetConfig) : List Condition → Bool
  | [] => true
  | c :: rest => condAvoids col sheet sc c && condListAvoids col sheet sc rest

end

/-- The actual column names key generation reads: the resolved policy
column and every resolved document column. -/
def keyColumnsOf (sc : SheetConfig) : List String :=
  ((alookup sc.columns sc.policy_column).getD sc.policy_column) ::
    sc.document_columns.map (fun dl => (alookup sc.columns dl).getD dl)

/-! ### Matching engine -/

/-- The key set of one secondary sheet: every key generated by any of
its rows (the source collects them in a `set`; only membership is ever
used, so a list with its membership relation is the model). -/
def sheetKeySet (df : Table) (sc : SheetConfig) : List String :=
  df.flatMap (fun row => (generate_composite_keys row sc).map Prod.fst)

/-- The per-secondary-sheet key sets, in secondary-sheet order;
`none` when a declared secondary sheet has no entry in
`config['sheets']` (a `KeyError` in the source). -/
def secondaryKeySets (secondary_dfs : List (String × Table))
    (sheets_config : List (String × SheetConfig)) : Option (List (String × List String)) :=
  secondary_dfs.mapM (fun nd =>
    (alookup sheets_config nd.1).map (fun sc => (nd.1, sheetKeySet nd.2 sc)))

/-- Per-row match data accumulated by the primary-row loop of
`perform_matching`. -/
structure RowMatch where
  matched_key : String
  has_match : Bool
  avail : List String
  trans : List String
deriving DecidableEq, Repr

/-- The inner loop of `perform_matching` for one primary row: visit
the secondary sheets in order; for each, the first candidate key found
in that sheet's key set marks the row available there and records the
transaction-type label of the matching document column (label map with
the actual column name as fallback); the first key matched anywhere
is saved once (while `matched_key` is still falsy), and any per-sheet
match sets the overall flag. -/
def matchRowAux (keys : List (String × String)) (trans_type_labels : List (String × String)) :
    List (String × List String) → String → Bool → RowMatch
  | [], matched_key, overall_match => ⟨matched_key, overall_match, [], []⟩
  | (_, sec_keys) :: rest, matched_key, overall_match =>
    match keys.find? (fun kc => sec_keys.contains kc.1) with
    | some kc =>
        let sec_trans_type := (alookup trans_type_labels kc.2).getD kc.2
        let r := matchRowAux keys trans_type_labels rest
          (if matched_key = "" then kc.1 else matched_key) true
        ⟨r.matched_key, r.has_match, "Yes" :: r.avail, sec_trans_type :: r.trans⟩
    | none =>
        let r := matchRowAux keys trans_type_labels rest matched_key overall_match
        ⟨r.matched_key, r.has_match, "No" :: r.avail, "" :: r.trans⟩

/-- One step of the column-writing tail of `perform_matching`: write
the sheet's configured column (availability or transaction type,
selected by `pick`), or leave the table alone when none is
configured. -/
def writeStep (output_cols : List (String × OutputCols)) (pick : OutputCols → Option String)
    (vals : Nat → List Value) (acc : Table) (p : Nat × String) : Table :=
  match (alookup output_cols p.2).bind pick with
  | some col_name => Table.setCol acc col_name (vals p.1)
  | none => acc

/-- The column-writing tail of `perform_matching`: for each secondary
sheet, in order, write its availability column (when configured), then
likewise every transaction-type column. -/
def writeSheetCols (df : Table) (secNames : List String)
    (output_cols : List (String × OutputCols)) (pick : OutputCols → Option String)
    (vals : Nat → List Value) : Table :=
  secNames.enum.foldl (writeStep output_cols pick vals) df

/-- `perform_matching`: build each secondary sheet's key set, match
every primary row against each secondary sheet, then append to the
primary table the internal `_matched_key`/`_has_match` columns and the
configured per-sheet availability and transaction-type columns.
`none` models the `KeyError` on a sheet name missing from
`config['sheets']`. -/
def perform_matching (primary_df : Table) (secondary_dfs : List (String × Table))
    (config : Config) : Option Table :=
  match alookup config.sheets config.matching.primary_sheet,
        secondaryKeySets secondary_dfs config.sheets with
  | some primary_config, some keySets =>
    let trans_type_labels := primary_config.trans_type_column_labels
    let results := primary_df.map (fun row =>
      matchRowAux (generate_composite_keys row primary_config) trans_type_labels keySets "" false)
    let df1 := Table.setCol primary_df "_matched_key" (results.map (fun r => Value.str r.matched_key))
    let df2 := Table.setCol df1 "_has_match" (results.map (fun r => Value.bool r.has_match))
    let secNames := keySets.map Prod.fst
    let df3 := writeSheetCols df2 secNames config.matching.output_columns
      (fun oc => oc.availability)
      (fun j => results.map (fun r => Value.str ((r.avail.get? j).getD "")))
    let df4 := writeSheetCols df3 secNames config.matching.output_columns
      (fun oc => oc.trans_type)
      (fun j => results.map (fun r => Value.str ((r.trans.get? j).getD "")))
    some df4
  | _, _ => none

/-- Step 1 of `reconcile` as a transformation of the in-memory sheet
store `sheets_data`: run `perform_matching` on the primary sheet's
table and store the result back under the primary sheet's name; every
other entry of the store is left alone. -/
def reconcile_matching_step (sheets_data : List (String × Table))
    (secondary_dfs : List (String × Table)) (config : Config) :
    Option (List (String × Table)) :=
  (alookup sheets_data config.matching.primary_sheet).bind (fun primary_df =>
    (perform_matching primary_df secondary_dfs config).map (fun df' =>
      sheets_data.map (fun p =>
        if p.1 = config.matching.primary_sheet then (p.1, df') else p)))

/-- The columns `perform_matching` writes into the primary table: the
two internal aggregates plus every configured availability and
transaction-type column of the listed secondary sheets. -/
def matchingWrittenCols (config : Config) (secNames : List String) : List String :=
  "_matched_key" :: "_has_match" ::
    secNames.foldr (fun n acc =>
      match alookup config.matching.output_columns n with
      | some oc => oc.availability.toList ++ oc.trans_type.toList ++ acc
      | none => acc) []

/-! ### Remarks engine -/

/-- `build_key_to_row_map`: first-seen-wins map from every composite
key of a sheet to the row that produced it. -/
def build_key_to_row_map (df : Table) (sheet_config : SheetConfig) : List (String × Row) :=
  df.foldl (fun key_map row =>
    (generate_composite_keys row sheet_config).foldl (fun key_map kc =>
      if (alookup key_map kc.1).isSome then key_map else key_map ++ [(kc.1, row)]) key_map) []

/-- The key maps `apply_remarks_rules` builds for every loaded sheet
other than the one being processed; `none` when some such sheet has no
entry in `config['sheets']` (a `KeyError` in the source). -/
def remarkKeyMaps (sheets_data : List (String × Table)) (sheet_name : String)
    (sheets_config : List (String × SheetConfig)) :
    Option (List (String × List (String × Row))) :=
  (sheets_data.filter (fun p => p.1 ≠ sheet_name)).mapM (fun p =>
    (alookup sheets_config p.1).map (fun sc => (p.1, build_key_to_row_map p.2 sc)))

/-- Probe the candidate keys, in order, against one sheet's key map. -/
def findInKeyMap (key_map : List (String × Row)) (keys : List (String × String)) : Option Row :=
  match keys.find? (fun kc => (alookup key_map kc.1).isSome) with
  | some kc => alookup key_map kc.1
  | none => none

/-- The matched-row search of `apply_remarks_rules`: the first other
sheet, in supplied order, in whose key map some candidate key of the
row is found. -/
def resolveByKeys (key_maps : List (String × List (String × Row)))
    (keys : List (String × String)) : Option Row :=
  match key_maps with
  | [] => none
  | (_, key_map) :: rest =>
    match findInKeyMap key_map keys with
    | some r => some r
    | none => resolveByKeys rest keys

/-- The `_matched_key` fallback probe over the same key maps. -/
def resolveByMatchedKey (key_maps : List (String × List (String × Row)))
    (matched_key : String) : Option Row :=
  match key_maps with
  | [] => none
  | (_, key_map) :: rest =>
    match alookup key_map matched_key with
    | some r => some r
    | none => resolveByMatchedKey rest matched_key

/-- Matched-counterpart resolution for one row: candidate keys first;
when that fails and the row carries a truthy `_matched_key` (a
non-empty string; a non-string value never matches the string-keyed
maps), retry with it. -/
def resolveMatchedRow (key_maps : List (String × List (String × Row)))
    (keys : List (String × String)) (row : Row) : Option Row :=
  match resolveByKeys key_maps keys with
  | some r => some r
  | none =>
    match Row.get? row "_matched_key" with
    | some (Value.str s) => if s ≠ "" then resolveByMatchedKey key_maps s else none
    | _ => none

/-- The per-row rule scan: the remark of the first rule whose
condition set evaluates true, else the default remark. -/
def firstMatchingRemark (rules : List Rule) (default_remark : String) (current_row : Row)
    (sheet_name : String) (sheets_config : List (String × SheetConfig))
    (matched_row : Option Row) : String :=
  match rules with
  | [] => default_remark
  | rule :: rest =>
    if evaluate_conditions rule.conditions rule.condition_logic current_row sheet_name
        sheets_config matched_row then rule.remark
    else firstMatchingRemark rest default_remark current_row sheet_name sheets_config matched_row

/-- The remark assigned to one row of the processed sheet. -/
def rowRemark (rc : RulesConfig) (key_maps : List (String × List (String × Row)))
    (sc : SheetConfig) (sheet_name : String)
    (sheets_config : List (String × SheetConfig)) (row : Row) : String :=
  firstMatchingRemark rc.rules rc.default_remark row sheet_name sheets_config
    (resolveMatchedRow key_maps (generate_composite_keys row sc) row)

/-- `apply_remarks_rules`: a sheet with no (or an empty) rules entry
is returned unchanged; otherwise build the cross-sheet key maps (and
the self key map, whose construction the source performs and whose
result it never reads), compute every row's remark, and write them
into the configured output column.  `none` models the `KeyError` on a
sheet name missing from `config['sheets']`. -/
def apply_remarks_rules (df : Table) (sheet_name : String) (config : Config)
    (sheets_data : List (String × Table)) : Option Table :=
  match alookup config.remarks_rules sheet_name with
  | none => some df
  | some rc =>
    match remarkKeyMaps sheets_data sheet_name config.sheets,
          alookup config.sheets sheet_name with
    | some key_maps, some sc =>
      some (Table.setCol df rc.output_column
        (df.map (fun row => Value.str (rowRemark rc key_maps sc sheet_name config.sheets row))))
    | _, _ => none

/-! ### Concrete fixtures used by the closed instance theorems -/

/-- A one-row table over a single source column. -/
def exRow : Row := [("A", Value.str "x")]

def exDf : Table := [exRow]

/-- Two rules that both hold of `exRow` (column `A` is non-empty), so
rule order alone decides which remark is assigned. -/
def exRule1 : Rule where
  conditions := [Condition.mk "not_empty" (Operand.ref none (some "A"))
    (Operand.lit Value.absent) none []]
  remark := "R1"

def exRule2 : Rule where
  conditions := [Condition.mk "not_empty" (Operand.ref none (some "A"))
    (Operand.lit Value.absent) none []]
  remark := "R2"

def exRules : RulesConfig where
  output_column := "R"
  default_remark := "D"
  rules := [exRule1, exRule2]

def exCfg : Config where
  sheets := [("S", {})]
  matching := { primary_sheet := "S" }
  remarks_rules := [("S", exRules)]

/-- A rule with an empty condition list, placed before `exRule2`. -/
def exRuleEmpty : Rule where
  remark := "E"

def exRulesEmpty : RulesConfig where
  output_column := "R"
  default_remark := "D"
  rules := [exRuleEmpty, exRule2]

def exCfgEmpty : Config where
  sheets := [("S", {})]
  matching := { primary_sheet := "S" }
  remarks_rules := [("S", exRulesEmpty)]


/-- Matching fixtures: a primary sheet `P` and a secondary sheet `Q`
whose single rows share no composite key. -/
def mPCfg : SheetConfig where
  policy_column := "Pol"
  document_columns := ["Doc"]

def mSCfg : SheetConfig where
  policy_column := "Pol"
  document_columns := ["Doc"]

def mCfg : Config where
  sheets := [("P", mPCfg), ("Q", mSCfg)]
  matching := { primary_sheet := "P", secondary_sheets := ["Q"],
                output_columns := [("Q", { availability := some "Avail", trans_type := some "TT" })] }
  remarks_rules := []

def mRow : Row := [("Pol", Value.str "p"), ("Doc", Value.str "d")]

def mDf : Table := [mRow]

def mSec : Table := [[("Pol", Value.str "x"), ("Doc", Value.str "y")]]

/-- The table `perform_matching` produces on the matching fixtures. -/
def mOut : Table :=
  [[("Pol", Value.str "p"), ("Doc", Value.str "d"), ("_matched_key", Value.str ""),
    ("_has_match", Value.bool false), ("Avail", Value.str "No"), ("TT", Value.str "")]]


/-- Idempotence fixtures: sheet `S` whose remarks output column `R` is
also one of its configured document (key) columns, and a second sheet
`T` holding the key that `S`'s row acquires only after the first
remarks pass writes into `R`. -/
def c9S : SheetConfig where
  policy_column := "P"
  document_columns := ["R"]

def c9T : SheetConfig where
  policy_column := "P"
  document_columns := ["Q"]

/-- A rule that references no columns at all. -/
def c9Rule : Rule where
  conditions := [Condition.mk "key_exists_in" (Operand.lit Value.absent)
    (Operand.lit Value.absent) none []]
  remark := "X"

def c9Cfg : Config where
  sheets := [("S", c9S), ("T", c9T)]
  matching := { primary_sheet := "S" }
  remarks_rules := [("S", { output_column := "R", default_remark := "D", rules := [c9Rule] })]

def c9Df : Table := [[("P", Value.str "p")]]

def c9TDf : Table := [[("P", Value.str "p"), ("Q", Value.str "D")]]

def c9Data : List (String × Table) := [("S", c9Df), ("T", c9TDf)]

/-- The first and second remark passes on the idempotence fixtures. -/
def c9Df1 : Table := [[("P", Value.str "p"), ("R", Value.str "D")]]

def c9Df2 : Table := [[("P", Value.str "p"), ("R", Value.str "X")]]


/-! ## Shared lemmas -/

theorem alookup_append {α : Type} (l l' : List (String × α)) (k : String) :
    alookup (l ++ l') k =
      match alookup l k with
      | some v => some v
      | none => alookup l' k := by
  induction l with
  | nil => rfl
  | cons p rest ih =>
      by_cases h : p.1 = k <;> simp [alookup, h, ih]

theorem alookup_map_set {v : Value} {k : String} (l : Row) :
    alookup (l.map (fun p => if p.1 = k then (k, v) else p)) k =
      if (alookup l k).isSome then some v else none := by
  induction l with
  | nil => rfl
  | cons p rest ih =>
      by_cases h : p.1 = k <;> simp [alookup, h, ih]

theorem alookup_map_set_ne {v : Value} {k k' : String} (h : k' ≠ k) (l : Row) :
    alookup (l.map (fun p => if p.1 = k then (k, v) else p)) k' = alookup l k' := by
  induction l with
  | nil => rfl
  | cons p rest ih =>
      by_cases hk : p.1 = k
      · have hne : ¬ k = k' := fun e => h e.symm
        simp [alookup, hk, hne, ih]
      · by_cases hk' : p.1 = k' <;> simp [alookup, hk, hk', h, ih]

theorem rowSet_get_self (r : Row) (k : String) (v : Value) :
    Row.get? (Row.set r k v) k = some v := by
  unfold Row.set Row.get?
  by_cases h : (alookup r k).isSome
  · rw [if_pos h, alookup_map_set, if_pos h]
  · rw [if_neg h, alookup_append]
    rcases he : alookup r k with _ | w
    · simp [alookup]
    · rw [he] at h; simp at h

theorem rowSet_get_ne (r : Row) (k k' : String) (v : Value) (h : k' ≠ k) :
    Row.get? (Row.set r k v) k' = Row.get? r k' := by
  unfold Row.set Row.get?
  by_cases hp : (alookup r k).isSome
  · rw [if_pos hp, alookup_map_set_ne h]
  · rw [if_neg hp, alookup_append]
    rcases he : alookup r k' with _ | w
    · have hne : ¬ k = k' := fun e => h e.symm
      simp [alookup, hne]
    · simp

theorem setCol_map (t : Table) (k : String) (f : Row → Value) :
    Table.setCol t k (t.map f) = t.map (fun r => Row.set r k (f r)) := by
  induction t with
  | nil => rfl
  | cons r rest ih => simpa [Table.setCol, List.zip] using ih

theorem cell_setCol_map_self (t : Table) (k : String) (f : Row → Value)
    (i : Nat) (row : Row) (h : t.get? i = some row) :
    Table.cell (Table.setCol t k (t.map f)) i k = some (f row) := by
  rw [setCol_map]
  unfold Table.cell
  rw [List.get?_map, h]
  simp [rowSet_get_self]

theorem firstMatchingRemark_first_true (pre post : List Rule) (r : Rule) (d : String)
    (row : Row) (sheet : String) (cfgs : List (String × SheetConfig)) (mr : Option Row)
    (hpre : ∀ r' ∈ pre, evaluate_conditions r'.conditions r'.condition_logic row sheet cfgs mr = false)
    (hr : evaluate_conditions r.conditions r.condition_logic row sheet cfgs mr = true) :
    firstMatchingRemark (pre ++ r :: post) d row sheet cfgs mr = r.remark := by
  induction pre with
  | nil => simp [firstMatchingRemark, hr]
  | cons q rest ih =>
      have hq := hpre q (by simp)
      simp only [List.cons_append, firstMatchingRemark, hq]
      simp only [Bool.false_eq_true, if_false]
      exact ih (fun r' hm => hpre r' (by simp [hm]))

theorem firstMatchingRemark_all_false (rules : List Rule) (d : String)
    (row : Row) (sheet : String) (cfgs : List (String × SheetConfig)) (mr : Option Row)
    (h : ∀ r ∈ rules, evaluate_conditions r.conditions r.condition_logic row sheet cfgs mr = false) :
    firstMatchingRemark rules d row sheet cfgs mr = d := by
  induction rules with
  | nil => rfl
  | cons q rest ih =>
      have hq := h q (by simp)
      simp only [firstMatchingRemark, hq, Bool.false_eq_true, if_false]
      exact ih (fun r' hm => h r' (by simp [hm]))

theorem firstMatchingRemark_append_nil_rule (pre post : List Rule) (r : Rule)
    (d : String) (row : Row) (sheet : String) (cfgs : List (String × SheetConfig))
    (mr : Option Row) (hr : r.conditions = []) :
    firstMatchingRemark (pre ++ r :: post) d row sheet cfgs mr =
      firstMatchingRemark pre r.remark row sheet cfgs mr := by
  induction pre with
  | nil =>
      simp [firstMatchingRemark, hr, evaluate_conditions]
  | cons q rest ih =>
      by_cases h : evaluate_conditions q.conditions q.condition_logic row sheet cfgs mr <;>
        simp [firstMatchingRemark, h, ih]

/-! ## C3 -/

/-- C3: `parse_numeric` is total and never fails.  Every input has a
value; a null parses to `0.0`; after comma/space stripping and
trimming, an empty or bare-`-` string parses to `0.0`; text the float
parser rejects parses to `0.0`; text it accepts parses to its value;
and the four concrete examples of the specification hold. -/
theorem C3_parse_numeric_total_fail_open :
    (∀ v : Value, ∃ q : ℚ, parse_numeric v = q) ∧
    parse_numeric Value.absent = 0 ∧
    (∀ s : String, pyCleanNumStr s = "" ∨ pyCleanNumStr s = "-" →
        parse_numeric (Value.str s) = 0) ∧
    (∀ s : String, parseFloat? (pyCleanNumStr s) = none → parse_numeric (Value.str s) = 0) ∧
    (∀ (s : String) (q : ℚ), pyCleanNumStr s ≠ "" → pyCleanNumStr s ≠ "-" →
        parseFloat? (pyCleanNumStr s) = some q → parse_numeric (Value.str s) = q) ∧
    parse_numeric (Value.str "1,234.50") = 1234.5 ∧
    parse_numeric (Value.str "") = 0 ∧
    parse_numeric (Value.str "-") = 0 ∧
    parse_numeric (Value.str "abc") = 0 := by
  refine ⟨fun v => ⟨parse_numeric v, rfl⟩, rfl, ?_, ?_, ?_, ?_, rfl, rfl, ?_⟩
  · intro s h
    simp [parse_numeric, h]
  · intro s h
    by_cases hc : pyCleanNumStr s = "" ∨ pyCleanNumStr s = "-" <;>
      simp [parse_numeric, hc, h]
  · intro s q h1 h2 h3
    simp [parse_numeric, h1, h2, h3]
  · have h1 : (parse_numeric (Value.str "1,234.50")).num = 2469 := by
      set_option maxRecDepth 2000 in with_unfolding_all decide
    have h2 : (parse_numeric (Value.str "1,234.50")).den = 2 := by
      set_option maxRecDepth 2000 in with_unfolding_all decide
    have h3 : (1234.5 : ℚ).num = 2469 := by
      set_option maxRecDepth 2000 in with_unfolding_all decide
    have h4 : (1234.5 : ℚ).den = 2 := by
      set_option maxRecDepth 2000 in with_unfolding_all decide
    exact Rat.ext (h1.trans h3.symm) (h2.trans h4.symm)
  · with_unfolding_all decide

/-- C3 witness: the unparsable-text conjunct applied at `"abc"`. -/
theorem C3_witness :
    parseFloat? (pyCleanNumStr "abc") = none ∧ parse_numeric (Value.str "abc") = 0 :=
  ⟨by with_unfolding_all decide,
   C3_parse_numeric_total_fail_open.2.2.2.1 "abc" (by with_unfolding_all decide)⟩

/-! ## C5 -/

/-- C5: `extract_document` trims and splits on `/`; with at least two
segments it returns segment index 1 trimmed, whatever the segment
count; with a single segment it returns the trimmed whole value; an
absent or empty input yields an absent result; and the concrete
examples of the specification hold. -/
theorem C5_extract_document_second_segment :
    (∀ (v : Value), v ≠ Value.absent → v ≠ Value.str "" →
        ∀ (a b : String) (t : List String),
          pySplit (pyStrip (pyStr v)) '/' = a :: b :: t →
          extract_document v = Value.str (pyStrip b)) ∧
    (∀ (v : Value), v ≠ Value.absent → v ≠ Value.str "" →
        ∀ a : String, pySplit (pyStrip (pyStr v)) '/' = [a] →
          extract_document v = Value.str (pyStrip (pyStr v))) ∧
    extract_document Value.absent = Value.absent ∧
    extract_document (Value.str "") = Value.absent ∧
    extract_document (Value.str "DNMD001224838/SHMIU25000012942") =
      Value.str "SHMIU25000012942" ∧
    extract_document (Value.str "SHMIU25000012942") = Value.str "SHMIU25000012942" ∧
    extract_document (Value.str "A/B/C") = Value.str "B" := by
  refine ⟨?_, ?_, rfl, rfl, by decide, by decide, by decide⟩
  · intro v h1 h2 a b t hsplit
    simp [extract_document, h1, h2, hsplit]
  · intro v h1 h2 a hsplit
    simp [extract_document, h1, h2, hsplit]

/-- C5 witness: the at-least-two-segments conjunct applied to
`"A/B/C"`, whose split has three segments. -/
theorem C5_witness : extract_document (Value.str "A/B/C") = Value.str (pyStrip "B") :=
  C5_extract_document_second_segment.1 (Value.str "A/B/C") (by decide) (by decide)
    "A" "B" ["C"] (by decide)

/-! ## C6 -/

/-- C6: unrecognized configuration vocabulary never raises: a
normalization name outside the registry acts as the identity, and a
condition whose type tag is none of the ten known kinds evaluates
false. -/
theorem C6_unknown_vocabulary_safe :
    (∀ (v : Value) (fn : String),
        fn ≠ "normalize_policy" → fn ≠ "extract_document" → fn ≠ "normalize_document" →
        apply_normalization v fn = v) ∧
    (∀ (t : String) (l r : Operand) (tol : Option ℚ) (subs : List Condition)
        (row : Row) (sheet : String) (cfgs : List (String × SheetConfig)) (mr : Option Row),
        t ∉ (["equals", "approx_equals", "less_than", "greater_than", "empty", "not_empty",
              "key_exists_in", "has_match", "no_match", "cross_sheet_or"] : List String) →
        evaluate_condition (Condition.mk t l r tol subs) row sheet cfgs mr = false) := by
  constructor
  · intro v fn h1 h2 h3
    simp [apply_normalization, NORMALIZATION_REGISTRY, h1, h2, h3]
  · intro t l r tol subs row sheet cfgs mr h
    simp only [List.mem_cons, List.mem_singleton, not_or] at h
    obtain ⟨e1, e2, e3, e4, e5, e6, e7, e8, e9, e10⟩ := h
    simp [evaluate_condition, e1, e2, e3, e4, e5, e6, e7, e8, e9, e10]

/-- C6 witness: the name and the tag `"bogus"`. -/
theorem C6_witness :
    apply_normalization (Value.num 7) "bogus" = Value.num 7 ∧
    evaluate_condition (Condition.mk "bogus" (Operand.lit Value.absent)
      (Operand.lit Value.absent) none []) [] "S" [] none = false :=
  ⟨C6_unknown_vocabulary_safe.1 (Value.num 7) "bogus" (by decide) (by decide) (by decide),
   C6_unknown_vocabulary_safe.2 "bogus" (Operand.lit Value.absent) (Operand.lit Value.absent)
     none [] [] "S" [] none (by decide)⟩

/-! ## C1 -/

/-- C1: the `equals` condition on resolved operand values.  When the
right value is a Python number the left is coerced through
`parse_numeric` and the condition holds exactly when the coerced left
equals the right; otherwise the raw values are compared, under which a
numeric `0` differs from an empty value; and the coercion is
one-sided: `"5" equals 5` holds while `5 equals "5"` fails. -/
theorem C1_equals_right_numeric_coercion :
    (∀ (lv rv : Value) (row : Row) (sheet : String)
        (cfgs : List (String × SheetConfig)) (mr : Option Row),
        isNumericPy rv = true →
        (evaluate_condition (Condition.mk "equals" (Operand.lit lv) (Operand.lit rv) none [])
            row sheet cfgs mr = true ↔ parse_numeric lv = numericRat rv)) ∧
    (∀ (lv rv : Value) (row : Row) (sheet : String)
        (cfgs : List (String × SheetConfig)) (mr : Option Row),
        isNumericPy rv = false →
        evaluate_condition (Condition.mk "equals" (Operand.lit lv) (Operand.lit rv) none [])
            row sheet cfgs mr = pyEq lv rv) ∧
    (∀ (row : Row) (sheet : String) (cfgs : List (String × SheetConfig)) (mr : Option Row),
        evaluate_condition (Condition.mk "equals" (Operand.lit (Value.num 0))
            (Operand.lit (Value.str "")) none []) row sheet cfgs mr = false ∧
        evaluate_condition (Condition.mk "equals" (Operand.lit (Value.num 0))
            (Operand.lit Value.absent) none []) row sheet cfgs mr = false ∧
        evaluate_condition (Condition.mk "equals" (Operand.lit (Value.str "5"))
            (Operand.lit (Value.num 5)) none []) row sheet cfgs mr = true ∧
        evaluate_condition (Condition.mk "equals" (Operand.lit (Value.num 5))
            (Operand.lit (Value.str "5")) none []) row sheet cfgs mr = false) := by
  refine ⟨?_, ?_, ?_⟩
  · intro lv rv row sheet cfgs mr hnum
    cases rv with
    | num q => simp [evaluate_condition, get_value_from_operand, pyEq, numericRat]
    | bool b => simp [evaluate_condition, get_value_from_operand, pyEq, numericRat]
    | absent => simp [isNumericPy] at hnum
    | str s => simp [isNumericPy] at hnum
  · intro lv rv row sheet cfgs mr hnum
    cases rv with
    | num q => simp [isNumericPy] at hnum
    | bool b => simp [isNumericPy] at hnum
    | absent => simp [evaluate_condition, get_value_from_operand]
    | str s => simp [evaluate_condition, get_value_from_operand]
  · intro row sheet cfgs mr
    refine ⟨?_, ?_, ?_, ?_⟩ <;>
        simp [evaluate_condition, get_value_from_operand, pyEq, parse_numeric] <;>
      with_unfolding_all decide

/-- C1 witness: the numeric-right conjunct at left `"5"`, right `5`. -/
theorem C1_witness :
    evaluate_condition (Condition.mk "equals" (Operand.lit (Value.str "5"))
        (Operand.lit (Value.num 5)) none []) [] "S" [] none = true ↔
      parse_numeric (Value.str "5") = numericRat (Value.num 5) :=
  C1_equals_right_numeric_coercion.1 (Value.str "5") (Value.num 5) [] "S" [] none (by decide)

/-! ## C2 -/

/-- C2: first satisfied rule wins.  For a sheet with a configured rule
set, `apply_remarks_rules` succeeds, and each row's output cell holds
the label of the first rule (in declared order) whose condition set
evaluates true — in particular the label of an earlier matching rule
rather than any later one — and the configured default label when no
rule's condition set evaluates true. -/
theorem C2_first_satisfied_rule_wins (df : Table) (sheet : String) (config : Config)
    (sheets_data : List (String × Table)) (rc : RulesConfig)
    (key_maps : List (String × List (String × Row))) (sc : SheetConfig)
    (h_rc : alookup config.remarks_rules sheet = some rc)
    (h_km : remarkKeyMaps sheets_data sheet config.sheets = some key_maps)
    (h_sc : alookup config.sheets sheet = some sc)
    (i : Nat) (row : Row) (h_row : df.get? i = some row) :
    ∃ df', apply_remarks_rules df sheet config sheets_data = some df' ∧
      ∀ mr, mr = resolveMatchedRow key_maps (generate_composite_keys row sc) row →
        ((∀ pre r post, rc.rules = pre ++ r :: post →
            (∀ r' ∈ pre, evaluate_conditions r'.conditions r'.condition_logic row sheet
                config.sheets mr = false) →
            evaluate_conditions r.conditions r.condition_logic row sheet config.sheets mr = true →
            Table.cell df' i rc.output_column = some (Value.str r.remark)) ∧
         ((∀ r ∈ rc.rules, evaluate_conditions r.conditions r.condition_logic row sheet
              config.sheets mr = false) →
            Table.cell df' i rc.output_column = some (Value.str rc.default_remark))) := by
  refine ⟨Table.setCol df rc.output_column
    (df.map (fun r => Value.str (rowRemark rc key_maps sc sheet config.sheets r))), ?_, ?_⟩
  · simp [apply_remarks_rules, h_rc, h_km, h_sc]
  · intro mr hmr
    have hcell : Table.cell (Table.setCol df rc.output_column
        (df.map (fun r => Value.str (rowRemark rc key_maps sc sheet config.sheets r))))
        i rc.output_column = some (Value.str (rowRemark rc key_maps sc sheet config.sheets row)) :=
      cell_setCol_map_self df rc.output_column _ i row h_row
    constructor
    · intro pre r post hrules hpre hr
      rw [hcell]
      unfold rowRemark
      rw [← hmr, hrules, firstMatchingRemark_first_true pre post r _ row sheet _ mr hpre hr]
    · intro hall
      rw [hcell]
      unfold rowRemark
      rw [← hmr, firstMatchingRemark_all_false _ _ row sheet _ mr hall]

/-- C2 witness: both fixture rules match the fixture row; the earlier
rule's label `"R1"` is assigned. -/
theorem C2_witness :
    ∃ df', apply_remarks_rules exDf "S" exCfg [("S", exDf)] = some df' ∧
      Table.cell df' 0 "R" = some (Value.str "R1") := by
  obtain ⟨df', h1, h2⟩ := C2_first_satisfied_rule_wins exDf "S" exCfg [("S", exDf)]
    exRules [] {} rfl rfl rfl 0 exRow rfl
  exact ⟨df', h1, (h2 _ rfl).1 [] exRule1 [exRule2] rfl (by simp) (by decide)⟩

/-! ## C10 -/

/-- C10: a rule with an empty condition list always fires:
`evaluate_conditions` on an empty list is true for every combinator,
row, sheet and matched row; consequently, when a sheet's rule list
contains such a rule, `apply_remarks_rules` behaves exactly as if the
rules after it and the configured default label did not exist — every
row that reaches the rule receives its remark. -/
theorem C10_empty_condition_list_always_fires :
    (∀ (logic : String) (row : Row) (sheet : String)
        (cfgs : List (String × SheetConfig)) (mr : Option Row),
        evaluate_conditions [] logic row sheet cfgs mr = true) ∧
    (∀ (df : Table) (sheet : String) (config : Config)
        (sheets_data : List (String × Table)) (rc : RulesConfig)
        (key_maps : List (String × List (String × Row))) (sc : SheetConfig)
        (pre post : List Rule) (r : Rule),
        alookup config.remarks_rules sheet = some rc →
        remarkKeyMaps sheets_data sheet config.sheets = some key_maps →
        alookup config.sheets sheet = some sc →
        rc.rules = pre ++ r :: post →
        r.conditions = [] →
        apply_remarks_rules df sheet config sheets_data =
          some (Table.setCol df rc.output_column (df.map (fun row => Value.str
            (firstMatchingRemark pre r.remark row sheet config.sheets
              (resolveMatchedRow key_maps (generate_composite_keys row sc) row)))))) := by
  constructor
  · intro logic row sheet cfgs mr
    simp [evaluate_conditions]
  · intro df sheet config sheets_data rc key_maps sc pre post r h_rc h_km h_sc h_rules h_empty
    simp only [apply_remarks_rules, h_rc, h_km, h_sc]
    congr 1
    congr 1
    congr 1
    funext row
    unfold rowRemark
    rw [h_rules, firstMatchingRemark_append_nil_rule _ _ _ _ _ _ _ _ h_empty]

/-- C10 witness: the fixture rule set whose first rule has no
conditions; the later rule and the default label are bypassed. -/
theorem C10_witness :
    apply_remarks_rules exDf "S" exCfgEmpty [("S", exDf)] =
      some [[("A", Value.str "x"), ("R", Value.str "E")]] := by
  have h := C10_empty_condition_list_always_fires.2 exDf "S" exCfgEmpty [("S", exDf)]
    exRulesEmpty [] {} [] [exRule2] exRuleEmpty rfl rfl rfl rfl rfl
  rw [h]
  rfl

theorem optOr_assoc {α : Type} (a b c : Option α) :
    optOr (optOr a b) c = optOr a (optOr b c) := by
  cases a <;> rfl

theorem build_map_inner (row : Row) (k : String) (km : List (String × Row))
    (kcs : List (String × String)) :
    alookup (kcs.foldl (fun key_map kc =>
        if (alookup key_map kc.1).isSome then key_map else key_map ++ [(kc.1, row)]) km) k =
      optOr (alookup km k)
        (if k ∈ kcs.map Prod.fst then some row else none) := by
  induction kcs generalizing km with
  | nil => cases h : alookup km k <;> simp [optOr, h]
  | cons kc rest ih =>
      simp only [List.foldl_cons]
      rw [ih]
      by_cases hs : (alookup km kc.1).isSome
      · rw [if_pos hs]
        rcases he : alookup km k with _ | w
        · by_cases hk : k = kc.1
          · rw [hk] at he; rw [he] at hs; simp at hs
          · by_cases hr : k ∈ List.map Prod.fst rest <;>
              simp [optOr, he, List.mem_cons, hk, hr]
        · simp [optOr, he]
      · rw [if_neg hs, alookup_append]
        rcases he : alookup km k with _ | w
        · by_cases hk : kc.1 = k
          · simp [optOr, alookup, hk, List.mem_cons]
          · have hk' : ¬ k = kc.1 := fun e => hk e.symm
            by_cases hr : k ∈ List.map Prod.fst rest <;>
              simp [optOr, alookup, hk, hk', List.mem_cons, hr]
        · simp [optOr, he]

theorem build_map_outer (sc : SheetConfig) (k : String) (km : List (String × Row))
    (df : Table) :
    alookup (df.foldl (fun key_map row =>
        (generate_composite_keys row sc).foldl (fun key_map kc =>
          if (alookup key_map kc.1).isSome then key_map else key_map ++ [(kc.1, row)]) key_map)
      km) k =
      optOr (alookup km k)
        (df.find? (fun row => decide (k ∈ (generate_composite_keys row sc).map Prod.fst))) := by
  induction df generalizing km with
  | nil => cases h : alookup km k <;> simp [optOr, h]
  | cons row rest ih =>
      simp only [List.foldl_cons]
      rw [ih, build_map_inner, optOr_assoc]
      by_cases hm : k ∈ (generate_composite_keys row sc).map Prod.fst
      · rw [if_pos hm, List.find?_cons_of_pos _ (by simpa using hm)]
        cases alookup km k <;> rfl
      · rw [if_neg hm, List.find?_cons_of_neg _ (by simpa using hm)]
        cases alookup km k <;> rfl

/-! ## C7 -/

/-- C7: `build_key_to_row_map` is first-seen-wins: looking up any key
in the built map finds exactly the first row, in source iteration
order, whose generated composite keys include that key — so a
duplicate key produced by a later row never replaces the earlier
binding, and no row-content comparison is involved. -/
theorem C7_key_map_first_seen_wins (df : Table) (sc : SheetConfig) (k : String) :
    alookup (build_key_to_row_map df sc) k =
      df.find? (fun row => decide (k ∈ (generate_composite_keys row sc).map Prod.fst)) := by
  unfold build_key_to_row_map
  rw [build_map_outer]
  rfl

theorem setCol_length (t : Table) (k : String) (vs : List Value)
    (h : vs.length = t.length) : (Table.setCol t k vs).length = t.length := by
  simp [Table.setCol, h]

theorem setCol_get? (t : Table) (k : String) (vs : List Value) (i : Nat) :
    (Table.setCol t k vs).get? i =
      (t.get? i).bind (fun r => (vs.get? i).map (fun v => Row.set r k v)) := by
  induction t generalizing vs i with
  | nil => cases vs <;> cases i <;> rfl
  | cons r rest ih =>
      cases vs with
      | nil =>
          cases i with
          | zero => rfl
          | succ i' => rcases h : rest.get? i' with _ | w <;> simp [Table.setCol, h]
      | cons v vrest =>
          cases i with
          | zero => rfl
          | succ i' => simpa [Table.setCol, List.zip] using ih vrest i'

theorem cell_setCol_self (t : Table) (k : String) (vs : List Value) (i : Nat)
    (r : Row) (v : Value) (hr : t.get? i = some r) (hv : vs.get? i = some v) :
    Table.cell (Table.setCol t k vs) i k = some v := by
  unfold Table.cell
  rw [setCol_get?, hr, hv]
  simp [rowSet_get_self]

theorem cell_setCol_ne (t : Table) (k c : String) (vs : List Value) (i : Nat)
    (hlen : vs.length = t.length) (hne : c ≠ k) :
    Table.cell (Table.setCol t k vs) i c = Table.cell t i c := by
  unfold Table.cell
  rw [setCol_get?]
  rcases hr : t.get? i with _ | r
  · rfl
  · rcases hv : vs.get? i with _ | v
    · exfalso
      have hlt : i < t.length := (List.get?_eq_some.mp hr).1
      have : vs.get? i ≠ none := by
        rw [ne_eq, List.get?_eq_none]
        omega
      exact this hv
    · simp [hr, rowSet_get_ne _ _ _ _ hne]

theorem matchRowAux_no_keys (keys : List (String × String)) (labels : List (String × String))
    (keySets : List (String × List String))
    (h : ∀ kc ∈ keys, ∀ nk ∈ keySets, nk.2.contains kc.1 = false) :
    matchRowAux keys labels keySets "" false =
      ⟨"", false, List.replicate keySets.length "No", List.replicate keySets.length ""⟩ := by
  induction keySets with
  | nil => rfl
  | cons nk rest ih =>
      have hfind : keys.find? (fun kc => nk.2.contains kc.1) = none := by
        rw [List.find?_eq_none]
        intro kc hkc
        simpa using h kc hkc nk (by simp)
      obtain ⟨n, ks⟩ := nk
      simp only [matchRowAux, hfind]
      rw [ih (fun kc hkc nk' hnk' => h kc hkc nk' (by simp [hnk']))]
      rfl

section WriteFold

variable (ocs : List (String × OutputCols)) (pick : OutputCols → Option String)
  (vals : Nat → List Value)

theorem writeStep_some (acc : Table) (p : Nat × String) (c : String)
    (hc : (alookup ocs p.2).bind pick = some c) :
    writeStep ocs pick vals acc p = Table.setCol acc c (vals p.1) := by
  unfold writeStep
  rw [hc]

theorem writeStep_none (acc : Table) (p : Nat × String)
    (hc : (alookup ocs p.2).bind pick = none) :
    writeStep ocs pick vals acc p = acc := by
  unfold writeStep
  rw [hc]

theorem writeFold_length (l : List (Nat × String)) (df : Table) (n : Nat)
    (hlen : df.length = n) (hv : ∀ j, (vals j).length = n) :
    (l.foldl (writeStep ocs pick vals) df).length = n := by
  induction l generalizing df with
  | nil => exact hlen
  | cons p rest ih =>
      simp only [List.foldl_cons]
      refine ih _ ?_
      rcases hc : (alookup ocs p.2).bind pick with _ | c
      · rw [writeStep_none _ _ _ _ _ hc]
        exact hlen
      · rw [writeStep_some _ _ _ _ _ _ hc, setCol_length _ _ _ (by rw [hv, hlen])]
        exact hlen

theorem writeFold_frame (l : List (Nat × String)) (df : Table) (n : Nat) (i : Nat) (c : String)
    (hlen : df.length = n) (hv : ∀ j, (vals j).length = n)
    (h : ∀ p ∈ l, ∀ c', (alookup ocs p.2).bind pick = some c' → c' ≠ c) :
    Table.cell (l.foldl (writeStep ocs pick vals) df) i c = Table.cell df i c := by
  induction l generalizing df with
  | nil => rfl
  | cons p rest ih =>
      simp only [List.foldl_cons]
      rcases hc : (alookup ocs p.2).bind pick with _ | c'
      · rw [writeStep_none _ _ _ _ _ hc]
        exact ih df hlen (fun p' hp' => h p' (by simp [hp']))
      · rw [writeStep_some _ _ _ _ _ _ hc]
        rw [ih _ (by rw [setCol_length _ _ _ (by rw [hv, hlen])]; exact hlen)
              (fun p' hp' => h p' (by simp [hp']))]
        exact cell_setCol_ne _ _ _ _ _ (by rw [hv, hlen]) (Ne.symm (h p (by simp) c' hc))

theorem writeFold_write (l1 l2 : List (Nat × String)) (j : Nat) (nm : String)
    (df : Table) (n : Nat) (i : Nat) (c : String) (v : Value)
    (hlen : df.length = n) (hv : ∀ j', (vals j').length = n)
    (hc : (alookup ocs nm).bind pick = some c)
    (hl2 : ∀ p ∈ l2, ∀ c', (alookup ocs p.2).bind pick = some c' → c' ≠ c)
    (hi : i < n) (hvj : (vals j).get? i = some v) :
    Table.cell ((l1 ++ (j, nm) :: l2).foldl (writeStep ocs pick vals) df) i c = some v := by
  rw [List.foldl_append]
  simp only [List.foldl_cons]
  have hlen1 : (l1.foldl (writeStep ocs pick vals) df).length = n :=
    writeFold_length ocs pick vals l1 df n hlen hv
  rw [writeStep_some _ _ _ _ _ _ hc]
  rw [writeFold_frame ocs pick vals l2 _ n i c
        (by rw [setCol_length _ _ _ (by rw [hv, hlen1])]; exact hlen1) hv hl2]
  obtain ⟨r1, hr1⟩ : ∃ r1, (l1.foldl (writeStep ocs pick vals) df).get? i = some r1 := by
    rw [List.get?_eq_get (by omega)]
    exact ⟨_, rfl⟩
  exact cell_setCol_self _ _ _ _ _ _ hr1 hvj

end WriteFold

theorem replicate_get? {α : Type} (n j : Nat) (a : α) (h : j < n) :
    (List.replicate n a).get? j = some a := by
  induction n generalizing j with
  | zero => omega
  | succ n' ih =>
      cases j with
      | zero => rfl
      | succ j' => exact ih j' (by omega)

/-! ## C4 -/

/-- C4: a primary row none of whose candidate keys (possibly zero)
belongs to any secondary sheet's key set is matched nowhere: the
per-row match record is availability `"No"` and transaction type `""`
against every secondary sheet with matched key `""` and overall flag
`false`; in the returned table the row's `_has_match` cell is `false`
(when no configured output column shadows that internal column) and
the row's cell in each secondary sheet's configured availability
column is `"No"` (when no later-written configured column shadows
it).  The hypotheses constrain only this row's keys, not the other
rows of the secondary sheets. -/
theorem C4_unmatched_row_no_everywhere (primary_df : Table) (secondary_dfs : List (String × Table)) (config : Config)
    (pc : SheetConfig) (keySets : List (String × List String)) (i : Nat) (row : Row)
    (h_pc : alookup config.sheets config.matching.primary_sheet = some pc)
    (h_ks : secondaryKeySets secondary_dfs config.sheets = some keySets)
    (h_row : primary_df.get? i = some row)
    (h_nokeys : ∀ kc ∈ generate_composite_keys row pc, ∀ nk ∈ keySets,
        nk.2.contains kc.1 = false) :
    matchRowAux (generate_composite_keys row pc) pc.trans_type_column_labels keySets "" false =
      ⟨"", false, List.replicate keySets.length "No", List.replicate keySets.length ""⟩ ∧
    ∀ df', perform_matching primary_df secondary_dfs config = some df' →
      ((∀ p ∈ ((keySets.map Prod.fst).enum : List (Nat × String)), ∀ c' : String,
          ((alookup config.matching.output_columns p.2).bind (fun oc => oc.availability) = some c' ∨
           (alookup config.matching.output_columns p.2).bind (fun oc => oc.trans_type) = some c') →
          c' ≠ "_has_match") →
        Table.cell df' i "_has_match" = some (Value.bool false)) ∧
      (∀ (l1 l2 : List (Nat × String)) (j : Nat) (nm c : String),
        (keySets.map Prod.fst).enum = l1 ++ (j, nm) :: l2 →
        j < keySets.length →
        (alookup config.matching.output_columns nm).bind (fun oc => oc.availability) = some c →
        (∀ p ∈ l2, ∀ c' : String,
          (alookup config.matching.output_columns p.2).bind (fun oc => oc.availability) = some c' →
          c' ≠ c) →
        (∀ p ∈ ((keySets.map Prod.fst).enum : List (Nat × String)), ∀ c' : String,
          (alookup config.matching.output_columns p.2).bind (fun oc => oc.trans_type) = some c' →
          c' ≠ c) →
        Table.cell df' i c = some (Value.str "No")) := by
  have hmr := matchRowAux_no_keys (generate_composite_keys row pc)
    pc.trans_type_column_labels keySets h_nokeys
  refine ⟨hmr, ?_⟩
  intro df' hdf
  simp only [perform_matching, h_pc, h_ks] at hdf
  obtain rfl := (Option.some.inj hdf).symm
  set rowFn := fun r : Row => matchRowAux (generate_composite_keys r pc)
    pc.trans_type_column_labels keySets "" false with hrowFn
  set results := primary_df.map rowFn with hresults
  set n := primary_df.length with hn
  have hi : i < n := (List.get?_eq_some.mp h_row).1
  have hres_i : results.get? i = some (rowFn row) := by
    rw [hresults, List.get?_map, h_row]; rfl
  have hres_len : results.length = n := by rw [hresults, List.length_map]
  set vs1 := results.map (fun r => Value.str r.matched_key) with hvs1
  set vs2 := results.map (fun r => Value.bool r.has_match) with hvs2
  set df1 := Table.setCol primary_df "_matched_key" vs1 with hdf1
  set df2 := Table.setCol df1 "_has_match" vs2 with hdf2
  have hlen1 : df1.length = n := by
    rw [hdf1, setCol_length _ _ _ (by rw [hvs1, List.length_map, hres_len, hn])]
  have hlen2 : df2.length = n := by
    rw [hdf2, setCol_length _ _ _ (by rw [hvs2, List.length_map, hres_len, hlen1])]
    exact hlen1
  obtain ⟨r1, hr1⟩ : ∃ r1, df1.get? i = some r1 := by
    rw [List.get?_eq_get (by omega)]; exact ⟨_, rfl⟩
  have hcell2 : Table.cell df2 i "_has_match" = some (Value.bool false) := by
    have hv2i : vs2.get? i = some (Value.bool false) := by
      rw [hvs2, List.get?_map, hres_i]
      simp only [hrowFn, Option.map_some']
      rw [hmr]
    exact cell_setCol_self _ _ _ _ _ _ hr1 hv2i
  set availPick := fun oc : OutputCols => oc.availability with hap
  set transPick := fun oc : OutputCols => oc.trans_type with htp
  set availVals := fun j => results.map (fun r => Value.str ((r.avail.get? j).getD "")) with hav
  set transVals := fun j => results.map (fun r => Value.str ((r.trans.get? j).getD "")) with htv
  have hav_len : ∀ j, (availVals j).length = n := by
    intro j; rw [hav]; simp [hres_len]
  have htv_len : ∀ j, (transVals j).length = n := by
    intro j; rw [htv]; simp [hres_len]
  set secEnum := ((keySets.map Prod.fst).enum : List (Nat × String)) with hse
  have hlen3 : (secEnum.foldl (writeStep config.matching.output_columns availPick availVals) df2).length = n :=
    writeFold_length _ _ _ _ _ _ hlen2 hav_len
  constructor
  · intro hno
    rw [writeSheetCols, writeSheetCols]
    rw [writeFold_frame _ _ _ _ _ n _ _ hlen3 htv_len
          (fun p hp c' hc' => hno p hp c' (Or.inr hc'))]
    rw [writeFold_frame _ _ _ _ _ n _ _ hlen2 hav_len
          (fun p hp c' hc' => hno p hp c' (Or.inl hc'))]
    exact hcell2
  · intro l1 l2 j nm c h_enum hj hc hl2 htrans
    rw [writeSheetCols, writeSheetCols]
    rw [writeFold_frame _ _ _ _ _ n _ _ hlen3 htv_len htrans]
    rw [h_enum]
    refine writeFold_write _ _ _ l1 l2 j nm df2 n i c (Value.str "No") hlen2 hav_len hc hl2 hi ?_
    rw [hav, List.get?_map, hres_i]
    simp only [hrowFn, Option.map_some']
    rw [hmr]
    simp [List.getElem?_replicate, hj]

/-- C4 witness: the fixture primary row's only key `"p|d"` is absent
from the secondary key set `["x|y"]`; its row-match record is all-No,
and in the output table `_has_match` is `false` and the availability
cell is `"No"`. -/
theorem C4_witness :
    matchRowAux (generate_composite_keys mRow mPCfg) mPCfg.trans_type_column_labels
        [("Q", ["x|y"])] "" false = ⟨"", false, List.replicate 1 "No", List.replicate 1 ""⟩ ∧
    Table.cell mOut 0 "_has_match" = some (Value.bool false) ∧
    Table.cell mOut 0 "Avail" = some (Value.str "No") := by
  have h := C4_unmatched_row_no_everywhere mDf [("Q", mSec)] mCfg mPCfg
    [("Q", ["x|y"])] 0 mRow rfl rfl rfl (by decide)
  refine ⟨h.1, ?_, ?_⟩
  · refine (h.2 mOut rfl).1 ?_
    intro p hp c' hc'
    have hp2 : p ∈ [((0 : Nat), "Q")] := hp
    rw [List.mem_singleton] at hp2
    subst hp2
    rcases hc' with h2 | h2 <;>
      · injection h2 with h3
        subst h3
        decide
  · refine (h.2 mOut rfl).2 [] [] 0 "Q" "Avail" rfl (by decide) rfl ?_ ?_
    · intro p hp
      simp at hp
    · intro p hp c' hc'
      have hp2 : p ∈ [((0 : Nat), "Q")] := hp
      rw [List.mem_singleton] at hp2
      subst hp2
      injection hc' with h3
      subst h3
      decide

theorem alookup_map_update_ne {β : Type} (t : String) (d : β) (l : List (String × β))
    (nm : String) (h : nm ≠ t) :
    alookup (l.map (fun p => if p.1 = t then (p.1, d) else p)) nm = alookup l nm := by
  induction l with
  | nil => rfl
  | cons p rest ih =>
      have hne : ¬ t = nm := fun e => h e.symm
      by_cases hk : p.1 = t
      · simp [alookup, hk, hne, ih]
      · by_cases hk' : p.1 = nm <;> simp [alookup, hk, hk', h, ih]

theorem mem_of_mem_enumFrom {α : Type} (l : List α) (k : Nat) (p : Nat × α)
    (h : p ∈ l.enumFrom k) : p.2 ∈ l := by
  induction l generalizing k with
  | nil => simp [List.enumFrom] at h
  | cons a rest ih =>
      rcases List.mem_cons.mp h with h | h
      · rw [h]
        simp
      · exact List.mem_cons_of_mem _ (ih (k + 1) h)

theorem mem_writtenAux (ocs : List (String × OutputCols)) (secNames : List String)
    (nm : String) (oc : OutputCols) (c : String)
    (hnm : nm ∈ secNames) (hoc : alookup ocs nm = some oc)
    (hc : c ∈ oc.availability.toList ++ oc.trans_type.toList) :
    c ∈ secNames.foldr (fun n acc =>
      match alookup ocs n with
      | some oc' => oc'.availability.toList ++ oc'.trans_type.toList ++ acc
      | none => acc) [] := by
  induction secNames with
  | nil => simp at hnm
  | cons n rest ih =>
      simp only [List.foldr_cons]
      rcases List.mem_cons.mp hnm with rfl | hnm2
      · rw [hoc]
        exact List.mem_append_left _ hc
      · rcases ho : alookup ocs n with _ | oc'
        · exact ih hnm2
        · exact List.mem_append_right _ (ih hnm2)

/-! ## C8 -/

/-- C8: matching never mutates the secondary sheets and writes only
its own columns into the primary table.  In the sheet store, the
matching step of `reconcile` rebinds only the primary sheet's entry,
so every other sheet's table is exactly the one supplied; and in the
returned primary table, every cell outside the internal
`_matched_key`/`_has_match` columns and the configured availability
and transaction-type output columns is unchanged. -/
theorem C8_matching_frame :
    (∀ (sheets_data secondary_dfs : List (String × Table)) (config : Config)
        (state' : List (String × Table)),
      reconcile_matching_step sheets_data secondary_dfs config = some state' →
      ∀ nm, nm ≠ config.matching.primary_sheet →
        alookup state' nm = alookup sheets_data nm) ∧
    (∀ (primary_df : Table) (secondary_dfs : List (String × Table)) (config : Config)
        (df' : Table) (i : Nat) (c : String) (keySets : List (String × List String)),
      secondaryKeySets secondary_dfs config.sheets = some keySets →
      perform_matching primary_df secondary_dfs config = some df' →
      c ∉ matchingWrittenCols config (keySets.map Prod.fst) →
      Table.cell df' i c = Table.cell primary_df i c) := by
  constructor
  · intro sheets_data secondary_dfs config state' hstep nm hnm
    unfold reconcile_matching_step at hstep
    rcases hpd : alookup sheets_data config.matching.primary_sheet with _ | primary_df
    · rw [hpd] at hstep
      simp only [Option.none_bind] at hstep
      exact absurd hstep (by simp)
    · rw [hpd] at hstep
      simp only [Option.some_bind] at hstep
      rcases hpm : perform_matching primary_df secondary_dfs config with _ | df'
      · rw [hpm] at hstep
        simp only [Option.map_none'] at hstep
        exact absurd hstep (by simp)
      · rw [hpm] at hstep
        simp only [Option.map_some'] at hstep
        obtain rfl := (Option.some.inj hstep).symm
        exact alookup_map_update_ne _ _ _ _ hnm
  · intro primary_df secondary_dfs config df' i c keySets h_ks hdf hc
    rcases hpc : alookup config.sheets config.matching.primary_sheet with _ | pc
    · rw [perform_matching, hpc, h_ks] at hdf
      exact absurd hdf (by simp)
    · simp only [perform_matching, hpc, h_ks] at hdf
      obtain rfl := (Option.some.inj hdf).symm
      have hne_mk : c ≠ "_matched_key" := fun e => hc (e ▸ List.mem_cons_self _ _)
      have hne_hm : c ≠ "_has_match" := fun e =>
        hc (e ▸ List.mem_cons_of_mem _ (List.mem_cons_self _ _))
      have hwrites : ∀ p ∈ ((keySets.map Prod.fst).enum : List (Nat × String)),
          ∀ (pick : OutputCols → Option String), (∀ oc, (pick oc).toList ⊆
            oc.availability.toList ++ oc.trans_type.toList) →
          ∀ c', (alookup config.matching.output_columns p.2).bind pick = some c' → c' ≠ c := by
        intro p hp pick hpick c' hc' he
        rcases ho : alookup config.matching.output_columns p.2 with _ | oc
        · rw [ho] at hc'
          simp at hc'
        · rw [ho] at hc'
          simp only [Option.some_bind] at hc'
          have hcmem : c' ∈ matchingWrittenCols config (keySets.map Prod.fst) :=
            List.mem_cons_of_mem _ (List.mem_cons_of_mem _
              (mem_writtenAux _ _ p.2 oc c' (mem_of_mem_enumFrom _ _ _ hp) ho
                (hpick oc (by simp [hc']))))
          exact hc (he ▸ hcmem)
      set rowFn := fun r : Row => matchRowAux (generate_composite_keys r pc)
        pc.trans_type_column_labels keySets "" false with hrowFn
      set results := primary_df.map rowFn with hresults
      set n := primary_df.length with hn
      have hres_len : results.length = n := by rw [hresults, List.length_map]
      set vs1 := results.map (fun r => Value.str r.matched_key) with hvs1
      set vs2 := results.map (fun r => Value.bool r.has_match) with hvs2
      set df1 := Table.setCol primary_df "_matched_key" vs1 with hdf1
      set df2 := Table.setCol df1 "_has_match" vs2 with hdf2
      have hlen1 : df1.length = n := by
        rw [hdf1, setCol_length _ _ _ (by rw [hvs1, List.length_map, hres_len, hn])]
      have hlen2 : df2.length = n := by
        rw [hdf2, setCol_length _ _ _ (by rw [hvs2, List.length_map, hres_len, hlen1])]
        exact hlen1
      have hav_len : ∀ j, (results.map (fun r => Value.str ((r.avail.get? j).getD ""))).length = n := by
        intro j
        simp [hres_len]
      have htv_len : ∀ j, (results.map (fun r => Value.str ((r.trans.get? j).getD ""))).length = n := by
        intro j
        simp [hres_len]
      have hlen3 : (((keySets.map Prod.fst).enum).foldl
          (writeStep config.matching.output_columns (fun oc => oc.availability)
            (fun j => results.map (fun r => Value.str ((r.avail.get? j).getD "")))) df2).length = n :=
        writeFold_length _ _ _ _ _ _ hlen2 hav_len
      rw [writeSheetCols, writeSheetCols]
      rw [writeFold_frame _ _ _ _ _ n _ _ hlen3 htv_len
            (fun p hp c' => hwrites p hp _ (fun oc => by simp) c')]
      rw [writeFold_frame _ _ _ _ _ n _ _ hlen2 hav_len
            (fun p hp c' => hwrites p hp _ (fun oc => by simp) c')]
      rw [hdf2, cell_setCol_ne _ _ _ _ _ (by rw [hvs2, List.length_map, hres_len, hlen1]) hne_hm]
      rw [hdf1, cell_setCol_ne _ _ _ _ _ (by rw [hvs1, List.length_map, hres_len, hn]) hne_mk]

/-- C8 witness: on the matching fixtures the store keeps sheet `Q`'s
binding untouched, and the source column `Pol` of the primary row is
unchanged in the matched table. -/
theorem C8_witness :
    alookup [("P", mOut), ("Q", mSec)] "Q" = alookup [("P", mDf), ("Q", mSec)] "Q" ∧
    Table.cell mOut 0 "Pol" = Table.cell mDf 0 "Pol" :=
  ⟨C8_matching_frame.1 [("P", mDf), ("Q", mSec)] [("Q", mSec)] mCfg
      [("P", mOut), ("Q", mSec)] rfl "Q" (by decide),
   C8_matching_frame.2 mDf [("Q", mSec)] mCfg mOut 0 "Pol" [("Q", ["x|y"])]
      rfl rfl (by decide)⟩

/-! ## C9 -/

/-- C9 counterexample: re-running remarks evaluation is not idempotent
as claimed.  On the idempotence fixtures the single rule's conditions
reference no column of the sheet (so in particular not the output
column), yet the first pass writes `"D"` and the second pass writes
`"X"` into the output column of the same row: the first pass's output
lands in a key (document) column, which changes the row's composite
keys, resolves a matched row in sheet `T`, and flips the
`key_exists_in` rule. -/
theorem C9_counterexample :
    condListAvoids "R" "S" c9S c9Rule.conditions = true ∧
    apply_remarks_rules c9Df "S" c9Cfg c9Data = some c9Df1 ∧
    apply_remarks_rules c9Df1 "S" c9Cfg c9Data = some c9Df2 ∧
    Table.cell c9Df1 0 "R" = some (Value.str "D") ∧
    Table.cell c9Df2 0 "R" = some (Value.str "X") ∧
    Table.cell c9Df2 0 "R" ≠ Table.cell c9Df1 0 "R" := by
  refine ⟨rfl, rfl, rfl, rfl, rfl, by decide⟩

theorem getval_set (o : Operand) (row : Row) (col : String) (v : Value) (sheet : String)
    (cfgs : List (String × SheetConfig)) (mr : Option Row) (sc : SheetConfig)
    (hsc : alookup cfgs sheet = some sc) (ha : operandAvoids col sheet sc o = true) :
    get_value_from_operand o (Row.set row col v) sheet cfgs mr =
      get_value_from_operand o row sheet cfgs mr := by
  cases o with
  | lit w => rfl
  | ref sOpt cOpt =>
      simp only [get_value_from_operand]
      by_cases hs : sOpt.getD sheet = sheet
      · rw [hs, if_pos (Eq.refl sheet), if_pos (Eq.refl sheet), hsc]
        cases cOpt with
        | none => rfl
        | some cr =>
            have ha' := ha
            simp only [operandAvoids] at ha'
            rw [if_pos hs] at ha'
            simp only [Bool.and_eq_true, decide_eq_true_eq] at ha'
            obtain ⟨ha1, ha2⟩ := ha'
            simp only [Option.map_some']
            rw [rowSet_get_ne _ _ _ _ ha1, rowSet_get_ne _ _ _ _ ha2]
      · rw [if_neg hs, if_neg hs]

mutual

theorem evalcond_set (col sheet : String) (sc : SheetConfig)
    (cfgs : List (String × SheetConfig)) (row : Row) (v : Value) (mr : Option Row)
    (hsc : alookup cfgs sheet = some sc) (hhm : ("_has_match" : String) ≠ col) :
    ∀ (c : Condition), condAvoids col sheet sc c = true →
      evaluate_condition c (Row.set row col v) sheet cfgs mr =
        evaluate_condition c row sheet cfgs mr
  | .mk t l r tol subs, ha => by
      have ha' := ha
      simp only [condAvoids, Bool.and_eq_true] at ha'
      obtain ⟨⟨hal, har⟩, hsubs⟩ := ha'
      simp only [evaluate_condition]
      by_cases h1 : t = "equals"
      · simp only [if_pos h1, getval_set l row col v sheet cfgs mr sc hsc hal,
          getval_set r row col v sheet cfgs mr sc hsc har]
      · simp only [if_neg h1]
        by_cases h2 : t = "approx_equals"
        · simp only [if_pos h2, getval_set l row col v sheet cfgs mr sc hsc hal,
            getval_set r row col v sheet cfgs mr sc hsc har]
        · simp only [if_neg h2]
          by_cases h3 : t = "less_than"
          · simp only [if_pos h3, getval_set l row col v sheet cfgs mr sc hsc hal,
              getval_set r row col v sheet cfgs mr sc hsc har]
          · simp only [if_neg h3]
            by_cases h4 : t = "greater_than"
            · simp only [if_pos h4, getval_set l row col v sheet cfgs mr sc hsc hal,
                getval_set r row col v sheet cfgs mr sc hsc har]
            · simp only [if_neg h4]
              by_cases h5 : t = "empty"
              · simp only [if_pos h5, getval_set l row col v sheet cfgs mr sc hsc hal]
              · simp only [if_neg h5]
                by_cases h6 : t = "not_empty"
                · simp only [if_pos h6, getval_set l row col v sheet cfgs mr sc hsc hal]
                · simp only [if_neg h6]
                  by_cases h7 : t = "key_exists_in"
                  · simp only [if_pos h7]
                  · simp only [if_neg h7]
                    by_cases h8 : t = "has_match"
                    · simp only [if_pos h8, rowGet,
                        rowSet_get_ne row col "_has_match" v hhm]
                    · simp only [if_neg h8]
                      by_cases h9 : t = "no_match"
                      · simp only [if_pos h9, rowGet,
                          rowSet_get_ne row col "_has_match" v hhm]
                      · simp only [if_neg h9]
                        by_cases h10 : t = "cross_sheet_or"
                        · simp only [if_pos h10]
                          exact evalcondlist_set col sheet sc cfgs row v mr hsc hhm subs hsubs
                        · simp only [if_neg h10]

theorem evalcondlist_set (col sheet : String) (sc : SheetConfig)
    (cfgs : List (String × SheetConfig)) (row : Row) (v : Value) (mr : Option Row)
    (hsc : alookup cfgs sheet = some sc) (hhm : ("_has_match" : String) ≠ col) :
    ∀ (cs : List Condition), condListAvoids col sheet sc cs = true →
      evaluate_condition_any cs (Row.set row col v) sheet cfgs mr =
        evaluate_condition_any cs row sheet cfgs mr
  | [], _ => rfl
  | c :: rest, ha => by
      have ha' := ha
      simp only [condListAvoids, Bool.and_eq_true] at ha'
      obtain ⟨h1, h2⟩ := ha'
      simp only [evaluate_condition_any]
      rw [evalcond_set col sheet sc cfgs row v mr hsc hhm c h1,
          evalcondlist_set col sheet sc cfgs row v mr hsc hhm rest h2]

end

theorem condListAvoids_mem (col sheet : String) (sc : SheetConfig) (cs : List Condition)
    (h : condListAvoids col sheet sc cs = true) :
    ∀ c ∈ cs, condAvoids col sheet sc c = true := by
  induction cs with
  | nil => intro c hc; simp at hc
  | cons c rest ih =>
      simp only [condListAvoids, Bool.and_eq_true] at h
      intro c' hc'
      rcases List.mem_cons.mp hc' with rfl | hc2
      · exact h.1
      · exact ih h.2 c' hc2

theorem filterMap_congr_mem {α β : Type} (l : List α) (f g : α → Option β)
    (h : ∀ a ∈ l, f a = g a) : l.filterMap f = l.filterMap g := by
  induction l with
  | nil => rfl
  | cons a rest ih =>
      simp only [List.filterMap_cons, h a (by simp)]
      rw [ih (fun a' ha' => h a' (by simp [ha']))]

theorem evalconds_set (col sheet : String) (sc : SheetConfig)
    (cfgs : List (String × SheetConfig)) (row : Row) (v : Value) (mr : Option Row)
    (hsc : alookup cfgs sheet = some sc) (hhm : ("_has_match" : String) ≠ col)
    (conds : List Condition) (logic : String)
    (ha : condListAvoids col sheet sc conds = true) :
    evaluate_conditions conds logic (Row.set row col v) sheet cfgs mr =
      evaluate_conditions conds logic row sheet cfgs mr := by
  unfold evaluate_conditions
  have hmap : conds.map (fun c => evaluate_condition c (Row.set row col v) sheet cfgs mr) =
      conds.map (fun c => evaluate_condition c row sheet cfgs mr) := by
    refine List.map_congr_left ?_
    intro c hc
    exact evalcond_set col sheet sc cfgs row v mr hsc hhm c
      (condListAvoids_mem col sheet sc conds ha c hc)
  rw [hmap]

theorem fmr_set (col sheet : String) (sc : SheetConfig)
    (cfgs : List (String × SheetConfig)) (row : Row) (v : Value) (mr : Option Row)
    (hsc : alookup cfgs sheet = some sc) (hhm : ("_has_match" : String) ≠ col)
    (rules : List Rule) (d : String)
    (ha : ∀ rule ∈ rules, condListAvoids col sheet sc rule.conditions = true) :
    firstMatchingRemark rules d (Row.set row col v) sheet cfgs mr =
      firstMatchingRemark rules d row sheet cfgs mr := by
  induction rules with
  | nil => rfl
  | cons rule rest ih =>
      simp only [firstMatchingRemark]
      rw [evalconds_set col sheet sc cfgs row v mr hsc hhm rule.conditions
            rule.condition_logic (ha rule (by simp))]
      rw [ih (fun r hr => ha r (by simp [hr]))]

theorem keyFieldValue_set (sc : SheetConfig) (row : Row) (col : String) (v : Value)
    (logical : String) (hne : (alookup sc.columns logical).getD logical ≠ col) :
    keyFieldValue (Row.set row col v) sc logical = keyFieldValue row sc logical := by
  simp only [keyFieldValue, rowGet]
  rw [rowSet_get_ne _ _ _ _ hne]

theorem genkeys_set (sc : SheetConfig) (row : Row) (col : String) (v : Value)
    (hkey : col ∉ keyColumnsOf sc) :
    generate_composite_keys (Row.set row col v) sc = generate_composite_keys row sc := by
  have hpol : (alookup sc.columns sc.policy_column).getD sc.policy_column ≠ col :=
    fun e => hkey (e ▸ List.mem_cons_self _ _)
  have hdoc : ∀ dl ∈ sc.document_columns, (alookup sc.columns dl).getD dl ≠ col := by
    intro dl hdl e
    exact hkey (List.mem_cons_of_mem _ (e ▸ List.mem_map_of_mem _ hdl))
  simp only [generate_composite_keys]
  rw [keyFieldValue_set sc row col v sc.policy_column hpol]
  refine filterMap_congr_mem _ _ _ ?_
  intro dl hdl
  rw [keyFieldValue_set sc row col v dl (hdoc dl hdl)]

theorem resolve_set (kms : List (String × List (String × Row)))
    (keys : List (String × String)) (row : Row) (col : String) (v : Value)
    (hmk : ("_matched_key" : String) ≠ col) :
    resolveMatchedRow kms keys (Row.set row col v) = resolveMatchedRow kms keys row := by
  simp only [resolveMatchedRow, Row.get?]
  rw [show alookup (Row.set row col v) "_matched_key" = alookup row "_matched_key" from
    rowSet_get_ne row col "_matched_key" v hmk]

theorem rowRemark_set (rc : RulesConfig) (kms : List (String × List (String × Row)))
    (sc : SheetConfig) (sheet : String) (cfgs : List (String × SheetConfig))
    (row : Row) (v : Value)
    (hsc : alookup cfgs sheet = some sc)
    (hrules : ∀ rule ∈ rc.rules, condListAvoids rc.output_column sheet sc rule.conditions = true)
    (hkey : rc.output_column ∉ keyColumnsOf sc)
    (hmk : ("_matched_key" : String) ≠ rc.output_column)
    (hhm : ("_has_match" : String) ≠ rc.output_column) :
    rowRemark rc kms sc sheet cfgs (Row.set row rc.output_column v) =
      rowRemark rc kms sc sheet cfgs row := by
  unfold rowRemark
  rw [genkeys_set sc row rc.output_column v hkey,
      resolve_set kms _ row rc.output_column v hmk,
      fmr_set rc.output_column sheet sc cfgs row v _ hsc hhm rc.rules rc.default_remark hrules]

/-- C9 amended: re-running remarks evaluation is idempotent provided
the rules reference only source columns (never the sheet's own output
column, directly or through the logical column map) AND the output
column is none of the sheet's key-generation columns nor one of the
internal `_matched_key`/`_has_match` columns.  The counterexample
shows the extra conditions are necessary: without them the first
pass's output can feed back into key generation.  Under these
conditions both passes succeed and every row's output cell is
identical after the second pass. -/
theorem C9_remarks_idempotent_amended (df : Table) (sheet : String) (config : Config)
    (sheets_data : List (String × Table)) (rc : RulesConfig)
    (key_maps : List (String × List (String × Row))) (sc : SheetConfig)
    (h_rc : alookup config.remarks_rules sheet = some rc)
    (h_km : remarkKeyMaps sheets_data sheet config.sheets = some key_maps)
    (h_sc : alookup config.sheets sheet = some sc)
    (hrules : ∀ rule ∈ rc.rules, condListAvoids rc.output_column sheet sc rule.conditions = true)
    (hkey : rc.output_column ∉ keyColumnsOf sc)
    (hmk : ("_matched_key" : String) ≠ rc.output_column)
    (hhm : ("_has_match" : String) ≠ rc.output_column) :
    ∃ df1 df2, apply_remarks_rules df sheet config sheets_data = some df1 ∧
      apply_remarks_rules df1 sheet config sheets_data = some df2 ∧
      ∀ i, Table.cell df2 i rc.output_column = Table.cell df1 i rc.output_column := by
  have hg : ∀ (r : Row) (v : Value),
      rowRemark rc key_maps sc sheet config.sheets (Row.set r rc.output_column v) =
        rowRemark rc key_maps sc sheet config.sheets r :=
    fun r v => rowRemark_set rc key_maps sc sheet config.sheets r v h_sc hrules hkey hmk hhm
  refine ⟨Table.setCol df rc.output_column
      (df.map (fun r => Value.str (rowRemark rc key_maps sc sheet config.sheets r))),
    Table.setCol (Table.setCol df rc.output_column
        (df.map (fun r => Value.str (rowRemark rc key_maps sc sheet config.sheets r))))
      rc.output_column
      ((Table.setCol df rc.output_column
          (df.map (fun r => Value.str (rowRemark rc key_maps sc sheet config.sheets r)))).map
        (fun r => Value.str (rowRemark rc key_maps sc sheet config.sheets r))), ?_, ?_, ?_⟩
  · simp [apply_remarks_rules, h_rc, h_km, h_sc]
  · simp [apply_remarks_rules, h_rc, h_km, h_sc]
  · intro i
    set g : Row → Value :=
      fun r => Value.str (rowRemark rc key_maps sc sheet config.sheets r) with hgdef
    set df1 := Table.setCol df rc.output_column (df.map g) with hdf1
    rcases h : df.get? i with _ | r
    · have h1 : df1.get? i = none := by
        rw [hdf1, setCol_map, List.get?_map, h]
        rfl
      have h2 : Table.cell (Table.setCol df1 rc.output_column (df1.map g)) i rc.output_column
          = none := by
        unfold Table.cell
        rw [setCol_get?, h1]
        rfl
      have h3 : Table.cell df1 i rc.output_column = none := by
        unfold Table.cell
        rw [h1]
        rfl
      rw [h2, h3]
    · have h1 : df1.get? i = some (Row.set r rc.output_column (g r)) := by
        rw [hdf1, setCol_map, List.get?_map, h]
        rfl
      have h2 : Table.cell df1 i rc.output_column = some (g r) := by
        unfold Table.cell
        rw [h1]
        simp [rowSet_get_self]
      have h3 : Table.cell (Table.setCol df1 rc.output_column (df1.map g)) i rc.output_column
          = some (g (Row.set r rc.output_column (g r))) :=
        cell_setCol_map_self df1 rc.output_column g i _ h1
      rw [h2, h3, hgdef]
      exact congrArg (fun s => some (Value.str s)) (hg r (g r))

/-- C9 witness: the amended idempotence theorem applied to the rule
fixtures, whose rules reference only the source column `A` and whose
output column `R` is not a key column. -/
theorem C9_witness :
    ∃ df1 df2, apply_remarks_rules exDf "S" exCfg [("S", exDf)] = some df1 ∧
      apply_remarks_rules df1 "S" exCfg [("S", exDf)] = some df2 ∧
      ∀ i, Table.cell df2 i "R" = Table.cell df1 i "R" :=
  C9_remarks_idempotent_amended exDf "S" exCfg [("S", exDf)] exRules [] {}
    rfl rfl rfl (by decide) (by decide) (by decide) (by decide)
